import Mathlib

/-!
# Verification of the live-commentary playback scheduler

Shallow embedding of the playback-scheduling, completion-detection and
deferred-action logic of `src/hooks/useLiveCommentary.ts` (and its verbatim
copy inside `src/components/GameCanvas.tsx`) of The-Howfen-Cricket-Game.

Time values (`AudioContext.currentTime`, buffer durations, timeout delays)
are modelled as rationals.  Timer handles returned by `setTimeout` are
modelled as natural numbers drawn from a fresh-id counter stored in the
state; a timer that has been cleared (its handle no longer stored in the
corresponding ref) never fires, which is modelled by fire events being
no-ops when their id does not match the stored handle.
-/

namespace Commentary

/-- Status strings used by the hook (`setCommentaryStatus` arguments). -/
def speakingStatus : String := "🎙️ Speaking..."

/-- The string tested against the head of `commentaryStatus` by
`commentaryStatus.startsWith("🎙️ Speaking")`. -/
def speakingMark : String := "🎙️ Speaking"

/-- Model of the JavaScript `String.prototype.startsWith`: the second string
is a prefix of the first. -/
def strStartsWith (s p : String) : Bool := p.data.isPrefixOf s.data

def liveReadyStatus : String := "🎙️ Live Ready"

def liveDisconnectedStatus : String := "⚠️ Live Disconnected"

def liveErrStatus : String := "⚠️ Live Err"

def liveClosedStatus : String := "🔌 Live Closed"

/-- The mutable refs of `useLiveCommentary`, gathered into one state record.
`audioCtxRunning` models `audioCtxRef.current !== null && audioCtxRef.current.state === 'running'`.
Pending next-ball actions are identified by opaque natural-number tokens. -/
structure SchedState where
  nextStartTime : ℚ
  isAudioPlaying : Bool
  isLiveSessionReady : Bool
  audioCtxRunning : Bool
  pendingNextBallAction : Option ℕ
  audioCompletionCheckTimeout : Option ℕ
  safetyNetNextBallTimeout : Option ℕ
  commentaryStatus : String
  nextTimerId : ℕ
  deriving DecidableEq, Repr

/-- The observable outcome of running one handler: the new state, the pending
actions invoked (in order), the `setCommentaryStatus` calls emitted, the
`source.start` time if a chunk was scheduled, the delay of a newly armed
completion poll if one was scheduled, and whether the handler threw
(decode failure). -/
structure StepOut where
  state : SchedState
  invoked : List ℕ
  emitted : List String
  startedAt : Option ℚ
  scheduledDelayMs : Option ℚ
  threw : Bool
  deriving DecidableEq, Repr

/-- A no-effect outcome. -/
def pureOut (s : SchedState) : StepOut :=
  { state := s, invoked := [], emitted := [], startedAt := none,
    scheduledDelayMs := none, threw := false }

/-- `const CHECK_INTERVAL_MS = 50`. -/
def CHECK_INTERVAL_MS : ℚ := 50

/-- `const MARGIN_SECONDS = 0.15`. -/
def MARGIN_SECONDS : ℚ := 15/100

/-- The status written on declaring completion:
`isLiveSessionReadyRef.current ? "🎙️ Live Ready" : "⚠️ Live Disconnected"`. -/
def readyStatus (s : SchedState) : String :=
  if s.isLiveSessionReady then liveReadyStatus else liveDisconnectedStatus

/-- The consume-and-run sequence shared by both completion branches of
`performCheckAndAct`: if a pending action exists, clear the slot, cancel the
safety-net timeout, and invoke the action. -/
def consumePending (s : SchedState) : SchedState × List ℕ :=
  match s.pendingNextBallAction with
  | some a =>
      ({ s with pendingNextBallAction := none, safetyNetNextBallTimeout := none }, [a])
  | none => (s, [])

/-- `performCheckAndAct` (useLiveCommentary.ts lines 52-91): one completion
check.  Clears the poll handle, then: if not playing or the audio context is
not running, declares idle completion (status downgrade when the previous
status was a Speaking status, then consume-and-run); otherwise compares
`now` against `nextStartTime - MARGIN_SECONDS`, declaring completion past
the threshold or re-arming one timeout with delay
`max(CHECK_INTERVAL_MS, (expectedEndTime - currentTime + MARGIN_SECONDS) * 1000)`. -/
def performCheckAndAct (s0 : SchedState) (now : ℚ) : StepOut :=
  let s : SchedState := { s0 with audioCompletionCheckTimeout := none }
  if !s.isAudioPlaying || !s.audioCtxRunning then
    let upd := strStartsWith s.commentaryStatus speakingMark
    let s1 : SchedState :=
      if upd then { s with commentaryStatus := readyStatus s } else s
    let c := consumePending s1
    { state := c.1, invoked := c.2,
      emitted := if upd then [readyStatus s] else [],
      startedAt := none, scheduledDelayMs := none, threw := false }
  else if s.nextStartTime - MARGIN_SECONDS ≤ now then
    let s1 : SchedState :=
      { s with isAudioPlaying := false, commentaryStatus := readyStatus s }
    let c := consumePending s1
    { state := c.1, invoked := c.2, emitted := [readyStatus s],
      startedAt := none, scheduledDelayMs := none, threw := false }
  else
    let timeToWait := max CHECK_INTERVAL_MS ((s.nextStartTime - now + MARGIN_SECONDS) * 1000)
    { state := { s with audioCompletionCheckTimeout := some s.nextTimerId,
                        nextTimerId := s.nextTimerId + 1 },
      invoked := [], emitted := [], startedAt := none,
      scheduledDelayMs := some timeToWait, threw := false }

/-- `scheduleAudioCompletionCheck` (lines 43-93): cancels any previously
scheduled detection poll, then immediately runs one check. -/
def scheduleAudioCompletionCheck (s : SchedState) (now : ℚ) : StepOut :=
  performCheckAndAct { s with audioCompletionCheckTimeout := none } now

/-- The audio-chunk block of the `onmessage` handler
(useLiveCommentary.ts lines 119-132), reached when the message carries audio
data and the audio context is running: if not already playing, bump the
cursor to `max(nextStartTime, currentTime)`; set `isAudioPlayingRef` true;
decode (which may throw — modelled by `decodeOk = false`, in which case the
handler aborts: nothing is scheduled, the cursor is not advanced, no status
is set); on success start the source at `nextStartTime`, advance the cursor
by the decoded duration and set the Speaking status. -/
def enqueueChunk (s : SchedState) (now dur : ℚ) (decodeOk : Bool) : StepOut :=
  if s.audioCtxRunning then
    let s1 : SchedState :=
      if !s.isAudioPlaying then { s with nextStartTime := max s.nextStartTime now } else s
    let s2 : SchedState := { s1 with isAudioPlaying := true }
    if decodeOk then
      { state := { s2 with nextStartTime := s2.nextStartTime + dur,
                           commentaryStatus := speakingStatus },
        invoked := [], emitted := [speakingStatus],
        startedAt := some s2.nextStartTime, scheduledDelayMs := none, threw := false }
    else
      { state := s2, invoked := [], emitted := [], startedAt := none,
        scheduledDelayMs := none, threw := true }
  else
    pureOut s

/-- The shape of an incoming live-session message, as far as the handler
inspects it: whether `serverContent.modelTurn` is present, whether the model
turn carries a decodable audio part (with its decoded duration, and whether
decoding succeeds), and whether `serverContent.turnComplete` is set. -/
structure LiveMessage where
  hasModelTurn : Bool
  audioChunk : Option (ℚ × Bool)
  turnComplete : Bool
  deriving DecidableEq, Repr

/-- Sequential composition of two handler outcomes (the second runs from the
first's resulting state). -/
def seqOut (o1 o2 : StepOut) : StepOut :=
  { state := o2.state, invoked := o1.invoked ++ o2.invoked,
    emitted := o1.emitted ++ o2.emitted,
    startedAt := o1.startedAt <|> o2.startedAt,
    scheduledDelayMs := o2.scheduledDelayMs <|> o1.scheduledDelayMs,
    threw := o1.threw || o2.threw }

/-- The `onmessage` callback (lines 113-140): if the message has a model
turn, run the audio block when an audio part is present (a decode throw
aborts the rest of the handler, including the turn-complete arm), then arm
the completion detector when `turnComplete` is set; a bare server
acknowledgement (`turnComplete` without a model turn) just arms the
detector. -/
def onmessage (s : SchedState) (m : LiveMessage) (now : ℚ) : StepOut :=
  if m.hasModelTurn then
    match m.audioChunk with
    | some (dur, ok) =>
        let o := enqueueChunk s now dur ok
        if o.threw then o
        else if m.turnComplete then seqOut o (scheduleAudioCompletionCheck o.state now)
        else o
    | none =>
        if m.turnComplete then scheduleAudioCompletionCheck s now else pureOut s
  else if m.turnComplete then
    scheduleAudioCompletionCheck s now
  else
    pureOut s

/-- The `onerror` callback (line 141): mark the session not ready, set the
error status, set `isAudioPlayingRef` false, and arm the completion
detector. -/
def onerror (s : SchedState) (now : ℚ) : StepOut :=
  let s1 : SchedState :=
    { s with isLiveSessionReady := false, commentaryStatus := liveErrStatus,
             isAudioPlaying := false }
  let o := scheduleAudioCompletionCheck s1 now
  { o with emitted := liveErrStatus :: o.emitted }

/-- The `onclose` callback (line 142): mark the session not ready, set the
closed status, set `isAudioPlayingRef` false, and arm the completion
detector. -/
def onclose (s : SchedState) (now : ℚ) : StepOut :=
  let s1 : SchedState :=
    { s with isLiveSessionReady := false, commentaryStatus := liveClosedStatus,
             isAudioPlaying := false }
  let o := scheduleAudioCompletionCheck s1 now
  { o with emitted := liveClosedStatus :: o.emitted }

/-- The cursor/flag reset performed by `initLiveSession` (lines 100-101):
`nextStartTimeRef.current = audioCtxRef.current.currentTime;
isAudioPlayingRef.current = false`. -/
def initSessionReset (s : SchedState) (now : ℚ) : SchedState :=
  { s with nextStartTime := now, isAudioPlaying := false }

/-- Modelled from the spec: the `setPendingAction` operation of the
DeferredActionSlot (spec §4.3) is not in src/ (it lives in the absent
`useGameEngine` hook; src/ only exposes `pendingNextBallActionRef` and
`safetyNetNextBallTimeoutRef` to it).  Per the spec it stores the action,
replacing any previous pending action, and starts a SafetyNetTimer,
cancelling any outstanding one first (modelled by replacing the stored
handle, so the old handle is dead). -/
def setPendingAction (s : SchedState) (a : ℕ) : SchedState :=
  { s with pendingNextBallAction := some a,
           safetyNetNextBallTimeout := some s.nextTimerId,
           nextTimerId := s.nextTimerId + 1 }

/-- Modelled from the spec: the SafetyNetTimer's own firing path (spec §4.3)
is not in src/ (it lives in the absent `useGameEngine` hook).  Per the spec,
when the timer fires first it performs the same consume-and-run sequence as
the detector: clear the slot, clear the timer handle, invoke the action.  A
fire whose handle was cancelled (no longer stored) is a no-op. -/
def safetyNetFire (s : SchedState) (id : ℕ) : SchedState × List ℕ :=
  if s.safetyNetNextBallTimeout = some id then
    match s.pendingNextBallAction with
    | some a =>
        ({ s with pendingNextBallAction := none, safetyNetNextBallTimeout := none }, [a])
    | none => ({ s with safetyNetNextBallTimeout := none }, [])
  else (s, [])

/-- The discrete events the scheduler reacts to: a completion-poll timeout
firing (a no-op when its handle was cancelled), an incoming session message,
the transport error and close callbacks, and the safety-net timer firing. -/
inductive Ev where
  | checkFires (id : ℕ) (now : ℚ)
  | message (m : LiveMessage) (now : ℚ)
  | errorEv (now : ℚ)
  | closeEv (now : ℚ)
  | netFires (id : ℕ)
  deriving DecidableEq, Repr

/-- One event step: the new state together with the pending actions invoked
during the step. -/
def step (s : SchedState) (e : Ev) : SchedState × List ℕ :=
  match e with
  | .checkFires id now =>
      if s.audioCompletionCheckTimeout = some id then
        let o := performCheckAndAct s now
        (o.state, o.invoked)
      else (s, [])
  | .message m now => let o := onmessage s m now; (o.state, o.invoked)
  | .errorEv now => let o := onerror s now; (o.state, o.invoked)
  | .closeEv now => let o := onclose s now; (o.state, o.invoked)
  | .netFires id => safetyNetFire s id

/-- Run a sequence of events, accumulating all invoked pending actions. -/
def runTrace (s : SchedState) (es : List Ev) : SchedState × List ℕ :=
  match es with
  | [] => (s, [])
  | e :: rest =>
      let p := step s e
      let q := runTrace p.1 rest
      (q.1, p.2 ++ q.2)

/-- Forget the status projection of a state (used to compare the scheduling
parts of two states). -/
def eraseStatus (s : SchedState) : SchedState :=
  { s with commentaryStatus := "" }

namespace GC

/-!
The second copy of the hook, embedded from the `useLiveCommentary` function
that appears inside `src/components/GameCanvas.tsx` (lines 297-463).  Its
scheduling, completion-detection and event-handling code is translated here
independently so that the two copies can be compared.
-/

/-- `performCheckAndAct` of the GameCanvas.tsx copy (lines 326-365). -/
def performCheckAndAct (s0 : SchedState) (now : ℚ) : StepOut :=
  let s : SchedState := { s0 with audioCompletionCheckTimeout := none }
  if !s.isAudioPlaying || !s.audioCtxRunning then
    let upd := strStartsWith s.commentaryStatus speakingMark
    let s1 : SchedState :=
      if upd then { s with commentaryStatus := readyStatus s } else s
    let c := consumePending s1
    { state := c.1, invoked := c.2,
      emitted := if upd then [readyStatus s] else [],
      startedAt := none, scheduledDelayMs := none, threw := false }
  else if s.nextStartTime - MARGIN_SECONDS ≤ now then
    let s1 : SchedState :=
      { s with isAudioPlaying := false, commentaryStatus := readyStatus s }
    let c := consumePending s1
    { state := c.1, invoked := c.2, emitted := [readyStatus s],
      startedAt := none, scheduledDelayMs := none, threw := false }
  else
    let timeToWait := max CHECK_INTERVAL_MS ((s.nextStartTime - now + MARGIN_SECONDS) * 1000)
    { state := { s with audioCompletionCheckTimeout := some s.nextTimerId,
                        nextTimerId := s.nextTimerId + 1 },
      invoked := [], emitted := [], startedAt := none,
      scheduledDelayMs := some timeToWait, threw := false }

/-- `scheduleAudioCompletionCheck` of the GameCanvas.tsx copy (lines 317-367). -/
def scheduleAudioCompletionCheck (s : SchedState) (now : ℚ) : StepOut :=
  GC.performCheckAndAct { s with audioCompletionCheckTimeout := none } now

/-- The audio-chunk block of the GameCanvas.tsx copy's `onmessage`
(lines 393-407). -/
def enqueueChunk (s : SchedState) (now dur : ℚ) (decodeOk : Bool) : StepOut :=
  if s.audioCtxRunning then
    let s1 : SchedState :=
      if !s.isAudioPlaying then { s with nextStartTime := max s.nextStartTime now } else s
    let s2 : SchedState := { s1 with isAudioPlaying := true }
    if decodeOk then
      { state := { s2 with nextStartTime := s2.nextStartTime + dur,
                           commentaryStatus := speakingStatus },
        invoked := [], emitted := [speakingStatus],
        startedAt := some s2.nextStartTime, scheduledDelayMs := none, threw := false }
    else
      { state := s2, invoked := [], emitted := [], startedAt := none,
        scheduledDelayMs := none, threw := true }
  else
    pureOut s

/-- The `onmessage` callback of the GameCanvas.tsx copy (lines 387-414). -/
def onmessage (s : SchedState) (m : LiveMessage) (now : ℚ) : StepOut :=
  if m.hasModelTurn then
    match m.audioChunk with
    | some (dur, ok) =>
        let o := GC.enqueueChunk s now dur ok
        if o.threw then o
        else if m.turnComplete then seqOut o (GC.scheduleAudioCompletionCheck o.state now)
        else o
    | none =>
        if m.turnComplete then GC.scheduleAudioCompletionCheck s now else pureOut s
  else if m.turnComplete then
    GC.scheduleAudioCompletionCheck s now
  else
    pureOut s

/-- The `onerror` callback of the GameCanvas.tsx copy (line 415). -/
def onerror (s : SchedState) (now : ℚ) : StepOut :=
  let s1 : SchedState :=
    { s with isLiveSessionReady := false, commentaryStatus := liveErrStatus,
             isAudioPlaying := false }
  let o := GC.scheduleAudioCompletionCheck s1 now
  { o with emitted := liveErrStatus :: o.emitted }

/-- The `onclose` callback of the GameCanvas.tsx copy (line 416). -/
def onclose (s : SchedState) (now : ℚ) : StepOut :=
  let s1 : SchedState :=
    { s with isLiveSessionReady := false, commentaryStatus := liveClosedStatus,
             isAudioPlaying := false }
  let o := GC.scheduleAudioCompletionCheck s1 now
  { o with emitted := liveClosedStatus :: o.emitted }

/-- The cursor/flag reset performed by the GameCanvas.tsx copy's
`initLiveSession` (lines 374-375). -/
def initSessionReset (s : SchedState) (now : ℚ) : SchedState :=
  { s with nextStartTime := now, isAudioPlaying := false }

end GC

/-! ## Theorems -/

@[simp] lemma consumePending_isAudioPlaying (s : SchedState) :
    (consumePending s).1.isAudioPlaying = s.isAudioPlaying := by
  cases h : s.pendingNextBallAction <;> simp [consumePending, h]

@[simp] lemma consumePending_nextStartTime (s : SchedState) :
    (consumePending s).1.nextStartTime = s.nextStartTime := by
  cases h : s.pendingNextBallAction <;> simp [consumePending, h]

@[simp] lemma consumePending_pending (s : SchedState) :
    (consumePending s).1.pendingNextBallAction = none := by
  cases h : s.pendingNextBallAction <;> simp [consumePending, h]

@[simp] lemma consumePending_invoked (s : SchedState) :
    (consumePending s).2 = s.pendingNextBallAction.toList := by
  cases h : s.pendingNextBallAction <;> simp [consumePending, h]

@[simp] lemma consumePending_checkTimeout (s : SchedState) :
    (consumePending s).1.audioCompletionCheckTimeout = s.audioCompletionCheckTimeout := by
  cases h : s.pendingNextBallAction <;> simp [consumePending, h]

@[simp] lemma consumePending_nextTimerId (s : SchedState) :
    (consumePending s).1.nextTimerId = s.nextTimerId := by
  cases h : s.pendingNextBallAction <;> simp [consumePending, h]

@[simp] lemma consumePending_ready (s : SchedState) :
    (consumePending s).1.isLiveSessionReady = s.isLiveSessionReady := by
  cases h : s.pendingNextBallAction <;> simp [consumePending, h]

@[simp] lemma consumePending_ctx (s : SchedState) :
    (consumePending s).1.audioCtxRunning = s.audioCtxRunning := by
  cases h : s.pendingNextBallAction <;> simp [consumePending, h]

@[simp] lemma consumePending_status (s : SchedState) :
    (consumePending s).1.commentaryStatus = s.commentaryStatus := by
  cases h : s.pendingNextBallAction <;> simp [consumePending, h]

/-- The error status is not a Speaking status. -/
lemma strStartsWith_err :
    strStartsWith liveErrStatus speakingMark = false := by decide

/-- The closed status is not a Speaking status. -/
lemma strStartsWith_closed :
    strStartsWith liveClosedStatus speakingMark = false := by decide

/-- C2: for every audio chunk successfully decoded while the output sink is
running, the first chunk since playback went idle is scheduled at
`max(nextStartTime, now)` and any further chunk at exactly `nextStartTime`;
afterwards `nextStartTime` has advanced by exactly the chunk's duration and
the playing flag is set, so the next successful chunk starts exactly where
this one ends (zero gap, zero overlap). -/
theorem enqueue_gapless_scheduling (s : SchedState) (now dur : ℚ)
    (hctx : s.audioCtxRunning = true) :
    (s.isAudioPlaying = false →
       (enqueueChunk s now dur true).startedAt = some (max s.nextStartTime now)) ∧
    (s.isAudioPlaying = true →
       (enqueueChunk s now dur true).startedAt = some s.nextStartTime) ∧
    (∃ st, (enqueueChunk s now dur true).startedAt = some st ∧
       (enqueueChunk s now dur true).state.nextStartTime = st + dur) ∧
    (enqueueChunk s now dur true).state.isAudioPlaying = true ∧
    (∀ now2 dur2,
       (enqueueChunk (enqueueChunk s now dur true).state now2 dur2 true).startedAt
         = some ((enqueueChunk s now dur true).state.nextStartTime)) := by
  cases hp : s.isAudioPlaying <;>
    simp [enqueueChunk, hctx, hp]

/-- Witness for C2 at a concrete idle state and a concrete playing state. -/
theorem enqueue_gapless_scheduling_witness :
    (⟨10, false, true, true, none, none, none, "", 0⟩ : SchedState).audioCtxRunning = true ∧
    (enqueueChunk ⟨10, false, true, true, none, none, none, "", 0⟩ 12 1 true).startedAt
      = some 12 := by
  have h := enqueue_gapless_scheduling ⟨10, false, true, true, none, none, none, "", 0⟩ 12 1 rfl
  refine ⟨rfl, ?_⟩
  have h1 := h.1 rfl
  rw [h1]
  norm_num

/-- C7: a transport error event and a session-close event each force
`isAudioPlaying` to false and arm the completion detector, whose immediate
check takes the idle branch: it declares completion right away (no re-poll
is scheduled) and runs any pending next-ball action, clearing the slot. -/
theorem error_close_unblock_pending (s : SchedState) (now : ℚ)
    (_hp : s.isAudioPlaying = true) :
    ((onerror s now).state.isAudioPlaying = false ∧
     (onerror s now).invoked = s.pendingNextBallAction.toList ∧
     (onerror s now).state.pendingNextBallAction = none ∧
     (s.pendingNextBallAction ≠ none →
        (onerror s now).state.safetyNetNextBallTimeout = none) ∧
     (onerror s now).scheduledDelayMs = none) ∧
    ((onclose s now).state.isAudioPlaying = false ∧
     (onclose s now).invoked = s.pendingNextBallAction.toList ∧
     (onclose s now).state.pendingNextBallAction = none ∧
     (s.pendingNextBallAction ≠ none →
        (onclose s now).state.safetyNetNextBallTimeout = none) ∧
     (onclose s now).scheduledDelayMs = none) := by
  unfold onerror onclose scheduleAudioCompletionCheck performCheckAndAct consumePending
  cases hpend : s.pendingNextBallAction <;>
    simp [strStartsWith_err, strStartsWith_closed, hpend]

/-- Witness for C7: a playing state with pending action 7 and an armed
safety net; both the error and the close path run the action. -/
theorem error_close_unblock_pending_witness :
    (⟨10, true, true, true, some 7, none, some 3, "", 4⟩ : SchedState).isAudioPlaying = true ∧
    (onerror ⟨10, true, true, true, some 7, none, some 3, "", 4⟩ 0).invoked = [7] ∧
    (onclose ⟨10, true, true, true, some 7, none, some 3, "", 4⟩ 0).invoked = [7] := by
  have h := error_close_unblock_pending ⟨10, true, true, true, some 7, none, some 3, "", 4⟩ 0 rfl
  exact ⟨rfl, by rw [h.1.2.1]; rfl, by rw [h.2.2.1]; rfl⟩

/-- C3: while the playing flag is set and the sink is running, a completion
check never declares completion while `now < nextStartTime - 0.15`, and
declares it (playing flag set false) as soon as `now` is at or past that
threshold; in the concrete scenario of chunks of durations 1.0 s and 0.8 s
enqueued at now = 10.0 s with cursor 10.0 s, the chunks start at 10.0 and
11.0, the cursor ends at 11.8, and a poll declares completion exactly when
now ≥ 11.65. -/
theorem completion_threshold (s : SchedState) (now : ℚ)
    (hp : s.isAudioPlaying = true) (hctx : s.audioCtxRunning = true) :
    (now < s.nextStartTime - MARGIN_SECONDS →
       (performCheckAndAct s now).state.isAudioPlaying = true ∧
       (performCheckAndAct s now).invoked = []) ∧
    (s.nextStartTime - MARGIN_SECONDS ≤ now →
       (performCheckAndAct s now).state.isAudioPlaying = false) ∧
    ((enqueueChunk ⟨10, false, true, true, none, none, none, "", 0⟩ 10 1 true).startedAt
       = some 10) ∧
    ((enqueueChunk (enqueueChunk ⟨10, false, true, true, none, none, none, "", 0⟩
        10 1 true).state 10 (4/5) true).startedAt = some 11) ∧
    ((enqueueChunk (enqueueChunk ⟨10, false, true, true, none, none, none, "", 0⟩
        10 1 true).state 10 (4/5) true).state.nextStartTime = 59/5) ∧
    (∀ t : ℚ,
       (performCheckAndAct
         (enqueueChunk (enqueueChunk ⟨10, false, true, true, none, none, none, "", 0⟩
            10 1 true).state 10 (4/5) true).state t).state.isAudioPlaying = false
         ↔ 233/20 ≤ t) := by
  have hs1 : (enqueueChunk ⟨10, false, true, true, none, none, none, "", 0⟩ 10 1 true).state
      = ⟨11, true, true, true, none, none, none, speakingStatus, 0⟩ := by
    norm_num [enqueueChunk]
  have hs2 : (enqueueChunk (enqueueChunk ⟨10, false, true, true, none, none, none, "", 0⟩
      10 1 true).state 10 (4/5) true).state
      = ⟨59/5, true, true, true, none, none, none, speakingStatus, 0⟩ := by
    rw [hs1]; norm_num [enqueueChunk]
  refine ⟨?_, ?_, ?_, ?_, ?_, ?_⟩
  · intro hlt
    simp [performCheckAndAct, hp, hctx, not_le.mpr hlt]
  · intro hge
    simp [performCheckAndAct, hp, hctx, hge]
  · norm_num [enqueueChunk]
  · rw [hs1]; norm_num [enqueueChunk]
  · rw [hs2]
  · intro t
    rw [hs2]
    have hth : (59:ℚ)/5 - MARGIN_SECONDS = 233/20 := by norm_num [MARGIN_SECONDS]
    simp only [performCheckAndAct, hth]
    split_ifs with hc <;> simp_all

/-- Witness for C3 at the scenario end state with a poll at now = 12. -/
theorem completion_threshold_witness :
    ((59:ℚ)/5 - MARGIN_SECONDS ≤ 12) ∧
    (performCheckAndAct ⟨59/5, true, true, true, none, none, none, "", 0⟩ 12).state.isAudioPlaying
      = false := by
  have hge : (59:ℚ)/5 - MARGIN_SECONDS ≤ 12 := by norm_num [MARGIN_SECONDS]
  exact ⟨hge,
    (completion_threshold ⟨59/5, true, true, true, none, none, none, "", 0⟩ 12 rfl rfl).2.1 hge⟩

/-- C4 (amended): when a check finds the threshold not yet reached, it
schedules exactly one future re-check whose delay is the larger of the
minimum poll interval (50 ms) and `(nextStartTime - now + 0.15) * 1000` ms —
the remaining time until `nextStartTime` plus the margin, which is one
margin more than «remaining time until the threshold plus the margin». -/
theorem rearm_delay (s : SchedState) (now : ℚ)
    (hp : s.isAudioPlaying = true) (hctx : s.audioCtxRunning = true)
    (hlt : now < s.nextStartTime - MARGIN_SECONDS) :
    (performCheckAndAct s now).scheduledDelayMs
        = some (max CHECK_INTERVAL_MS ((s.nextStartTime - now + MARGIN_SECONDS) * 1000)) ∧
    (performCheckAndAct s now).state.audioCompletionCheckTimeout = some s.nextTimerId ∧
    (performCheckAndAct s now).invoked = [] ∧
    CHECK_INTERVAL_MS ≤ max CHECK_INTERVAL_MS ((s.nextStartTime - now + MARGIN_SECONDS) * 1000)
    := by
  refine ⟨?_, ?_, ?_, le_max_left _ _⟩ <;>
    simp [performCheckAndAct, hp, hctx, not_le.mpr hlt]

/-- Witness for C4's amended theorem at cursor 11.8, now = 10. -/
theorem rearm_delay_witness :
    ((10:ℚ) < (59:ℚ)/5 - MARGIN_SECONDS) ∧
    (performCheckAndAct ⟨59/5, true, true, true, none, none, none, "", 0⟩ 10).scheduledDelayMs
      = some 1950 := by
  have h10 : (10:ℚ) < (59:ℚ)/5 - MARGIN_SECONDS := by norm_num [MARGIN_SECONDS]
  refine ⟨h10, ?_⟩
  have h := rearm_delay ⟨59/5, true, true, true, none, none, none, "", 0⟩ 10 rfl rfl h10
  rw [h.1]
  norm_num [CHECK_INTERVAL_MS, MARGIN_SECONDS]

/-- Counterexample for C4 as stated: at cursor 11.8 s, now = 10 s, the code
schedules a 1950 ms delay, whereas the claim's formula — the larger of 50 ms
and the remaining time until the threshold (`nextStartTime` minus the
margin) plus the margin — gives 1800 ms. -/
theorem rearm_delay_claim_counterexample :
    (performCheckAndAct ⟨59/5, true, true, true, none, none, none, "", 0⟩ 10).scheduledDelayMs
      = some 1950 ∧
    max CHECK_INTERVAL_MS ((((59:ℚ)/5 - MARGIN_SECONDS) - 10 + MARGIN_SECONDS) * 1000) = 1800 ∧
    (1950 : ℚ) ≠ 1800 := by
  refine ⟨?_, ?_, by norm_num⟩
  · have hlt : ¬ ((59:ℚ)/5 - MARGIN_SECONDS ≤ 10) := by norm_num [MARGIN_SECONDS]
    simp [performCheckAndAct, hlt]
    norm_num [CHECK_INTERVAL_MS, MARGIN_SECONDS]
  · norm_num [CHECK_INTERVAL_MS, MARGIN_SECONDS]

/-- C6 (amended): a chunk whose decode fails is dropped — nothing is
scheduled, the cursor is never advanced by its duration, the handler throws
(surfacing the error) — and, when playback was already marked playing, the
cursor is left fully unchanged; however, when the failing chunk is the
first since idle, the pre-decode bookkeeping has already bumped the cursor
to `max(cursor, now)` and set the playing flag.  Later chunks are still
processed: with three chunks whose second fails to decode while playing,
the third is scheduled immediately after the first chunk's end. -/
theorem decode_failure_drops_chunk (s : SchedState) (now dur : ℚ)
    (hctx : s.audioCtxRunning = true) :
    (s.isAudioPlaying = true →
       (enqueueChunk s now dur false).state.nextStartTime = s.nextStartTime) ∧
    (s.isAudioPlaying = false →
       (enqueueChunk s now dur false).state.nextStartTime = max s.nextStartTime now) ∧
    (enqueueChunk s now dur false).state.isAudioPlaying = true ∧
    (enqueueChunk s now dur false).startedAt = none ∧
    (enqueueChunk s now dur false).threw = true ∧
    (∀ n1 d1 n2 d2 n3 d3 : ℚ, s.isAudioPlaying = false →
       (enqueueChunk (enqueueChunk (enqueueChunk s n1 d1 true).state n2 d2 false).state
          n3 d3 true).startedAt = some (max s.nextStartTime n1 + d1)) := by
  cases hp : s.isAudioPlaying <;> simp [enqueueChunk, hctx, hp]

/-- Witness for C6's amended theorem: second of three chunks fails, third
starts right after the first ends (10 + 1 = 11). -/
theorem decode_failure_drops_chunk_witness :
    (⟨10, false, true, true, none, none, none, "", 0⟩ : SchedState).audioCtxRunning = true ∧
    (enqueueChunk (enqueueChunk
        (enqueueChunk ⟨10, false, true, true, none, none, none, "", 0⟩ 10 1 true).state
        10 (4/5) false).state 10 (4/5) true).startedAt = some 11 := by
  have h := (decode_failure_drops_chunk ⟨10, false, true, true, none, none, none, "", 0⟩
    0 0 rfl).2.2.2.2.2 10 1 10 (4/5) 10 (4/5) rfl
  refine ⟨rfl, ?_⟩
  rw [h]
  norm_num

/-- Counterexample for C6 as stated: with playback idle, cursor 5 and
now = 10, a chunk whose decode fails still mutates the cursor (to
`max(5, 10) = 10`) and flips the playing flag, because the code performs
both before attempting the decode. -/
theorem decode_failure_claim_counterexample :
    (enqueueChunk ⟨5, false, true, true, none, none, none, "", 0⟩ 10 2 false).state.nextStartTime
        = 10 ∧
    (⟨5, false, true, true, none, none, none, "", 0⟩ : SchedState).nextStartTime = 5 ∧
    ((10 : ℚ) ≠ 5) ∧
    (enqueueChunk ⟨5, false, true, true, none, none, none, "", 0⟩ 10 2 false).state.isAudioPlaying
        = true := by
  refine ⟨?_, rfl, by norm_num, ?_⟩ <;> norm_num [enqueueChunk]

/-- C5: arming the completion detector first cancels the previously
scheduled poll before installing its own: after an `arm`, the outstanding
poll handle is either cleared or one single fresh handle (so multiple arms
collapse to the latest and at most one poll timeout is outstanding), the
previously outstanding handle is no longer stored, a stale fire of that old
handle is a no-op, and handle freshness (every stored handle is below the
id counter) is preserved. -/
theorem arm_cancels_previous_poll (s : SchedState) (now t : ℚ) (id : ℕ)
    (_hid : s.audioCompletionCheckTimeout = some id)
    (hfresh : id < s.nextTimerId) :
    ((scheduleAudioCompletionCheck s now).state.audioCompletionCheckTimeout = none ∨
     (scheduleAudioCompletionCheck s now).state.audioCompletionCheckTimeout
        = some s.nextTimerId) ∧
    (scheduleAudioCompletionCheck s now).state.audioCompletionCheckTimeout ≠ some id ∧
    step (scheduleAudioCompletionCheck s now).state (.checkFires id t)
        = ((scheduleAudioCompletionCheck s now).state, []) ∧
    (∀ j, (scheduleAudioCompletionCheck s now).state.audioCompletionCheckTimeout = some j →
        j < (scheduleAudioCompletionCheck s now).state.nextTimerId) := by
  have hchar :
      ((scheduleAudioCompletionCheck s now).state.audioCompletionCheckTimeout = none ∧
       (scheduleAudioCompletionCheck s now).state.nextTimerId = s.nextTimerId) ∨
      ((scheduleAudioCompletionCheck s now).state.audioCompletionCheckTimeout
          = some s.nextTimerId ∧
       (scheduleAudioCompletionCheck s now).state.nextTimerId = s.nextTimerId + 1) := by
    simp only [scheduleAudioCompletionCheck, performCheckAndAct]
    split_ifs <;> simp
  have hne : (scheduleAudioCompletionCheck s now).state.audioCompletionCheckTimeout
      ≠ some id := by
    rcases hchar with ⟨h, _⟩ | ⟨h, _⟩ <;> rw [h] <;> simp
    omega
  refine ⟨?_, hne, ?_, ?_⟩
  · rcases hchar with ⟨h, _⟩ | ⟨h, _⟩
    · exact Or.inl h
    · exact Or.inr h
  · simp [step, hne]
  · intro j hj
    rcases hchar with ⟨h, h2⟩ | ⟨h, h2⟩
    · rw [h] at hj; cases hj
    · rw [h] at hj
      injection hj with hj
      rw [h2]
      omega

/-- Witness for C5 at a concrete state whose stale poll handle 2 is
invalidated by a new arm. -/
theorem arm_cancels_previous_poll_witness :
    (⟨0, false, false, false, none, some 2, none, "", 3⟩ : SchedState).audioCompletionCheckTimeout
        = some 2 ∧
    2 < (⟨0, false, false, false, none, some 2, none, "", 3⟩ : SchedState).nextTimerId ∧
    step (scheduleAudioCompletionCheck ⟨0, false, false, false, none, some 2, none, "", 3⟩ 0).state
        (.checkFires 2 0)
      = ((scheduleAudioCompletionCheck
            ⟨0, false, false, false, none, some 2, none, "", 3⟩ 0).state, []) :=
  ⟨rfl, by decide,
    (arm_cancels_previous_poll ⟨0, false, false, false, none, some 2, none, "", 3⟩ 0 0 2
      rfl (by decide)).2.2.1⟩

/-- The completion check never moves the timeline cursor. -/
lemma performCheckAndAct_cursor (s : SchedState) (now : ℚ) :
    (performCheckAndAct s now).state.nextStartTime = s.nextStartTime := by
  simp only [performCheckAndAct]
  split_ifs <;> simp

/-- Arming the detector never moves the timeline cursor. -/
lemma scheduleCheck_cursor (s : SchedState) (now : ℚ) :
    (scheduleAudioCompletionCheck s now).state.nextStartTime = s.nextStartTime := by
  simp [scheduleAudioCompletionCheck, performCheckAndAct_cursor]

/-- Enqueueing a chunk of non-negative duration never rewinds the cursor. -/
lemma enqueueChunk_cursor_le (s : SchedState) (now dur : ℚ) (ok : Bool) (h : 0 ≤ dur) :
    s.nextStartTime ≤ (enqueueChunk s now dur ok).state.nextStartTime := by
  simp only [enqueueChunk]
  split_ifs <;> simp [pureOut] <;> linarith [le_max_left s.nextStartTime now]

/-- Durations carried by an event are non-negative. -/
def chunkDurNonneg : Ev → Prop
  | .message m _ => ∀ d ok, m.audioChunk = some (d, ok) → 0 ≤ d
  | _ => True

/-- A message handler run never rewinds the cursor. -/
lemma onmessage_cursor_le (s : SchedState) (m : LiveMessage) (now : ℚ)
    (h : chunkDurNonneg (.message m now)) :
    s.nextStartTime ≤ (onmessage s m now).state.nextStartTime := by
  by_cases hmt : m.hasModelTurn
  · rcases hau : m.audioChunk with _ | ⟨d, ok⟩
    · simp only [onmessage, hmt, hau]
      split_ifs <;> simp [scheduleCheck_cursor, pureOut]
    · have h1 := enqueueChunk_cursor_le s now d ok (h d ok hau)
      simp only [onmessage, hmt, hau]
      split_ifs <;> simp [seqOut, scheduleCheck_cursor] <;> linarith
  · rw [Bool.not_eq_true] at hmt
    by_cases htc : m.turnComplete = true
    · simp [onmessage, hmt, htc, scheduleCheck_cursor]
    · rw [Bool.not_eq_true] at htc
      simp [onmessage, hmt, htc, pureOut]

/-- The error handler never moves the cursor. -/
lemma onerror_cursor (s : SchedState) (now : ℚ) :
    (onerror s now).state.nextStartTime = s.nextStartTime := by
  simp [onerror, scheduleCheck_cursor]

/-- The close handler never moves the cursor. -/
lemma onclose_cursor (s : SchedState) (now : ℚ) :
    (onclose s now).state.nextStartTime = s.nextStartTime := by
  simp [onclose, scheduleCheck_cursor]

/-- The safety-net fire never moves the cursor. -/
lemma safetyNetFire_cursor (s : SchedState) (id : ℕ) :
    (safetyNetFire s id).1.nextStartTime = s.nextStartTime := by
  unfold safetyNetFire
  split_ifs
  · cases s.pendingNextBallAction <;> simp
  · simp

/-- No single event with non-negative chunk durations rewinds the cursor. -/
lemma step_cursor_le (s : SchedState) (e : Ev) (h : chunkDurNonneg e) :
    s.nextStartTime ≤ (step s e).1.nextStartTime := by
  cases e with
  | checkFires id now =>
      simp only [step]
      split_ifs <;> simp [performCheckAndAct_cursor]
  | message m now => exact onmessage_cursor_le s m now h
  | errorEv now => simp [step, onerror_cursor]
  | closeEv now => simp [step, onclose_cursor]
  | netFires id => simp [step, safetyNetFire_cursor]

/-- No trace of events with non-negative chunk durations rewinds the cursor. -/
lemma runTrace_cursor_le (s : SchedState) (es : List Ev)
    (hes : ∀ e ∈ es, chunkDurNonneg e) :
    s.nextStartTime ≤ (runTrace s es).1.nextStartTime := by
  induction es generalizing s with
  | nil => simp [runTrace]
  | cons e rest ih =>
      have h1 := step_cursor_le s e (hes e (by simp))
      have h2 := ih (step s e).1 (fun x hx => hes x (by simp [hx]))
      simp only [runTrace]
      linarith

/-- C8: within one live session the timeline cursor is monotonically
non-decreasing: it is reset to the clock's current time when the session
(re)starts, and afterwards no handler — chunk scheduling (with non-negative
decoded durations), completion checks, error/close handlers, safety-net
fires, or any trace of such events — ever rewinds it. -/
theorem cursor_monotone (s : SchedState) (now dur : ℚ) (ok : Bool) (es : List Ev)
    (hdur : 0 ≤ dur) (hes : ∀ e ∈ es, chunkDurNonneg e) :
    (initSessionReset s now).nextStartTime = now ∧
    s.nextStartTime ≤ (enqueueChunk s now dur ok).state.nextStartTime ∧
    (performCheckAndAct s now).state.nextStartTime = s.nextStartTime ∧
    (onerror s now).state.nextStartTime = s.nextStartTime ∧
    (onclose s now).state.nextStartTime = s.nextStartTime ∧
    s.nextStartTime ≤ (runTrace s es).1.nextStartTime :=
  ⟨rfl, enqueueChunk_cursor_le s now dur ok hdur, performCheckAndAct_cursor s now,
   onerror_cursor s now, onclose_cursor s now, runTrace_cursor_le s es hes⟩

/-- Witness for C8 on a concrete two-event trace. -/
theorem cursor_monotone_witness :
    ((0:ℚ) ≤ 1) ∧
    (∀ e ∈ [Ev.message ⟨true, some (1, true), true⟩ 10, Ev.checkFires 0 12],
       chunkDurNonneg e) ∧
    (⟨10, false, true, true, none, none, none, "", 0⟩ : SchedState).nextStartTime
      ≤ (runTrace ⟨10, false, true, true, none, none, none, "", 0⟩
          [Ev.message ⟨true, some (1, true), true⟩ 10, Ev.checkFires 0 12]).1.nextStartTime := by
  have hes : ∀ e ∈ [Ev.message ⟨true, some (1, true), true⟩ 10, Ev.checkFires 0 12],
      chunkDurNonneg e := by
    intro e he
    simp only [List.mem_cons, List.mem_singleton] at he
    rcases he with rfl | rfl | h
    · intro d ok hd
      injection hd with hd
      injection hd with hd1 hd2
      rw [← hd1]; norm_num
    · trivial
    · cases h
  exact ⟨by norm_num, hes,
    (cursor_monotone ⟨10, false, true, true, none, none, none, "", 0⟩ 0 1 true
      [Ev.message ⟨true, some (1, true), true⟩ 10, Ev.checkFires 0 12]
      (by norm_num) hes).2.2.2.2.2⟩

/-- A completion check run from a state differing only in the status string
produces the same scheduling observables: same state up to status, same
invoked actions, same start times, same re-arm delay. -/
lemma performCheck_nonint (s : SchedState) (c : String) (now : ℚ) :
    eraseStatus (performCheckAndAct { s with commentaryStatus := c } now).state
      = eraseStatus (performCheckAndAct s now).state ∧
    (performCheckAndAct { s with commentaryStatus := c } now).invoked
      = (performCheckAndAct s now).invoked ∧
    (performCheckAndAct { s with commentaryStatus := c } now).startedAt
      = (performCheckAndAct s now).startedAt ∧
    (performCheckAndAct { s with commentaryStatus := c } now).scheduledDelayMs
      = (performCheckAndAct s now).scheduledDelayMs := by
  obtain ⟨x1, x2, x3, x4, x5, x6, x7, st, x9⟩ := s
  simp only [performCheckAndAct, eraseStatus, consumePending]
  cases x5 <;> split_ifs <;> simp_all

/-- Status-independence of the arm operation, for any two states equal up
to status. -/
lemma scheduleCheck_nonint (a b : SchedState) (hab : eraseStatus a = eraseStatus b)
    (now : ℚ) :
    eraseStatus (scheduleAudioCompletionCheck a now).state
      = eraseStatus (scheduleAudioCompletionCheck b now).state ∧
    (scheduleAudioCompletionCheck a now).invoked
      = (scheduleAudioCompletionCheck b now).invoked ∧
    (scheduleAudioCompletionCheck a now).startedAt
      = (scheduleAudioCompletionCheck b now).startedAt ∧
    (scheduleAudioCompletionCheck a now).scheduledDelayMs
      = (scheduleAudioCompletionCheck b now).scheduledDelayMs := by
  obtain ⟨a1, a2, a3, a4, a5, a6, a7, ast, a9⟩ := a
  obtain ⟨b1, b2, b3, b4, b5, b6, b7, bst, b9⟩ := b
  simp only [eraseStatus, SchedState.mk.injEq] at hab
  obtain ⟨h1, h2, h3, h4, h5, h6, h7, -, h9⟩ := hab
  subst h1; subst h2; subst h3; subst h4; subst h5; subst h6; subst h7; subst h9
  have h := performCheck_nonint ⟨a1, a2, a3, a4, a5, none, a7, bst, a9⟩ ast now
  simpa [scheduleAudioCompletionCheck] using h

/-- Chunk admission never reads the status string: same scheduling
observables from two states equal up to status. -/
lemma enqueueChunk_nonint (s : SchedState) (c : String) (now dur : ℚ) (ok : Bool) :
    eraseStatus (enqueueChunk { s with commentaryStatus := c } now dur ok).state
      = eraseStatus (enqueueChunk s now dur ok).state ∧
    (enqueueChunk { s with commentaryStatus := c } now dur ok).startedAt
      = (enqueueChunk s now dur ok).startedAt ∧
    (enqueueChunk { s with commentaryStatus := c } now dur ok).threw
      = (enqueueChunk s now dur ok).threw ∧
    (enqueueChunk { s with commentaryStatus := c } now dur ok).invoked
      = (enqueueChunk s now dur ok).invoked ∧
    (enqueueChunk { s with commentaryStatus := c } now dur ok).scheduledDelayMs
      = (enqueueChunk s now dur ok).scheduledDelayMs := by
  obtain ⟨x1, x2, x3, x4, x5, x6, x7, st, x9⟩ := s
  simp only [enqueueChunk, eraseStatus, pureOut]
  split_ifs <;> simp_all

/-- The error handler's outcome is fully independent of the incoming status
(it overwrites the status before anything else reads it). -/
lemma onerror_nonint (s : SchedState) (c : String) (now : ℚ) :
    onerror { s with commentaryStatus := c } now = onerror s now := rfl

/-- The close handler's outcome is fully independent of the incoming status. -/
lemma onclose_nonint (s : SchedState) (c : String) (now : ℚ) :
    onclose { s with commentaryStatus := c } now = onclose s now := rfl

/-- The message handler never lets the status string influence scheduling. -/
lemma onmessage_nonint (s : SchedState) (c : String) (m : LiveMessage) (now : ℚ) :
    eraseStatus (onmessage { s with commentaryStatus := c } m now).state
      = eraseStatus (onmessage s m now).state ∧
    (onmessage { s with commentaryStatus := c } m now).invoked
      = (onmessage s m now).invoked ∧
    (onmessage { s with commentaryStatus := c } m now).startedAt
      = (onmessage s m now).startedAt ∧
    (onmessage { s with commentaryStatus := c } m now).scheduledDelayMs
      = (onmessage s m now).scheduledDelayMs := by
  by_cases hmt : m.hasModelTurn = true
  · rcases hau : m.audioChunk with _ | ⟨d, ok⟩
    · by_cases htc : m.turnComplete = true
      · simp only [onmessage, hmt, hau, htc, if_true]
        exact scheduleCheck_nonint { s with commentaryStatus := c } s rfl now
      · rw [Bool.not_eq_true] at htc
        simp [onmessage, hmt, hau, htc, pureOut, eraseStatus]
    · obtain ⟨he, hst, hth, hinv, hdel⟩ := enqueueChunk_nonint s c now d ok
      have hs := scheduleCheck_nonint (enqueueChunk { s with commentaryStatus := c } now d ok).state
        (enqueueChunk s now d ok).state he now
      simp only [onmessage, hmt, hau, hth]
      by_cases hthrew : (enqueueChunk s now d ok).threw = true
      · simp [hthrew, he, hst, hinv, hdel]
      · rw [Bool.not_eq_true] at hthrew
        by_cases htc : m.turnComplete = true
        · simp [hthrew, htc, seqOut, he, hst, hinv, hdel, hs.1, hs.2.1, hs.2.2.1, hs.2.2.2]
        · rw [Bool.not_eq_true] at htc
          simp [hthrew, htc, he, hst, hinv, hdel]
  · rw [Bool.not_eq_true] at hmt
    by_cases htc : m.turnComplete = true
    · simp only [onmessage, hmt, htc]
      simp only [Bool.false_eq_true, if_false, if_true]
      exact scheduleCheck_nonint { s with commentaryStatus := c } s rfl now
    · rw [Bool.not_eq_true] at htc
      simp [onmessage, hmt, htc, pureOut, eraseStatus]

/-- C9 (amended): no scheduling decision depends on the status string — two
runs of any handler from states differing only in `commentaryStatus` yield
identical cursor values, chunk start times, playing-flag transitions,
re-arm delays and pending-action invocations.  (The status *is*, however,
read internally in the idle branch, but only to decide whether to overwrite
the status output itself — see the counterexample.) -/
theorem status_noninterference (s : SchedState) (c : String) (now dur : ℚ)
    (ok : Bool) (m : LiveMessage) :
    (eraseStatus (performCheckAndAct { s with commentaryStatus := c } now).state
       = eraseStatus (performCheckAndAct s now).state ∧
     (performCheckAndAct { s with commentaryStatus := c } now).invoked
       = (performCheckAndAct s now).invoked ∧
     (performCheckAndAct { s with commentaryStatus := c } now).scheduledDelayMs
       = (performCheckAndAct s now).scheduledDelayMs) ∧
    (eraseStatus (enqueueChunk { s with commentaryStatus := c } now dur ok).state
       = eraseStatus (enqueueChunk s now dur ok).state ∧
     (enqueueChunk { s with commentaryStatus := c } now dur ok).startedAt
       = (enqueueChunk s now dur ok).startedAt) ∧
    onerror { s with commentaryStatus := c } now = onerror s now ∧
    onclose { s with commentaryStatus := c } now = onclose s now ∧
    (eraseStatus (onmessage { s with commentaryStatus := c } m now).state
       = eraseStatus (onmessage s m now).state ∧
     (onmessage { s with commentaryStatus := c } m now).invoked
       = (onmessage s m now).invoked ∧
     (onmessage { s with commentaryStatus := c } m now).startedAt
       = (onmessage s m now).startedAt) := by
  obtain ⟨p1, p2, -, p4⟩ := performCheck_nonint s c now
  obtain ⟨e1, e2, -, -, -⟩ := enqueueChunk_nonint s c now dur ok
  obtain ⟨m1, m2, m3, -⟩ := onmessage_nonint s c m now
  exact ⟨⟨p1, p2, p4⟩, ⟨e1, e2⟩, onerror_nonint s c now, onclose_nonint s c now,
    ⟨m1, m2, m3⟩⟩

/-- Counterexample for C9 as stated: the status string *is* read as a
decision input inside `performCheckAndAct` — two states identical except
for `commentaryStatus` produce different `setCommentaryStatus` emissions in
the idle branch (one downgrades the Speaking status, the other emits
nothing), so the status is not purely write-only internally. -/
theorem status_read_internally_counterexample :
    eraseStatus ⟨0, false, true, true, none, none, none, speakingStatus, 0⟩
      = eraseStatus ⟨0, false, true, true, none, none, none, "", 0⟩ ∧
    (performCheckAndAct ⟨0, false, true, true, none, none, none, speakingStatus, 0⟩ 0).emitted
      = [liveReadyStatus] ∧
    (performCheckAndAct ⟨0, false, true, true, none, none, none, "", 0⟩ 0).emitted
      = [] := by
  have h1 : strStartsWith speakingStatus speakingMark = true := by decide
  have h2 : strStartsWith ("") speakingMark = false := by decide
  exact ⟨rfl, by simp [performCheckAndAct, readyStatus, h1],
    by simp [performCheckAndAct, h2]⟩

/-- The deferred-action slot holds action `a` with safety-net handle `nid`
armed. -/
def PhaseA (a nid : ℕ) (s : SchedState) : Prop :=
  s.pendingNextBallAction = some a ∧ s.safetyNetNextBallTimeout = some nid

/-- The deferred-action slot is empty with no safety net outstanding. -/
def PhaseB (s : SchedState) : Prop :=
  s.pendingNextBallAction = none ∧ s.safetyNetNextBallTimeout = none

/-- A completion check either leaves the slot and the safety net untouched
and invokes nothing, or consumes: slot cleared, safety net cancelled, the
(sole) pending action invoked. -/
lemma performCheckAndAct_slot (s : SchedState) (now : ℚ) :
    ((performCheckAndAct s now).state.pendingNextBallAction = s.pendingNextBallAction ∧
     (performCheckAndAct s now).state.safetyNetNextBallTimeout = s.safetyNetNextBallTimeout ∧
     (performCheckAndAct s now).invoked = []) ∨
    ((performCheckAndAct s now).state.pendingNextBallAction = none ∧
     (performCheckAndAct s now).state.safetyNetNextBallTimeout = none ∧
     (performCheckAndAct s now).invoked = s.pendingNextBallAction.toList) := by
  simp only [performCheckAndAct]
  cases hp : s.pendingNextBallAction <;>
    split_ifs <;> simp_all [consumePending]

/-- Arming the detector obeys the same slot characterization. -/
lemma scheduleCheck_slot (s : SchedState) (now : ℚ) :
    ((scheduleAudioCompletionCheck s now).state.pendingNextBallAction
        = s.pendingNextBallAction ∧
     (scheduleAudioCompletionCheck s now).state.safetyNetNextBallTimeout
        = s.safetyNetNextBallTimeout ∧
     (scheduleAudioCompletionCheck s now).invoked = []) ∨
    ((scheduleAudioCompletionCheck s now).state.pendingNextBallAction = none ∧
     (scheduleAudioCompletionCheck s now).state.safetyNetNextBallTimeout = none ∧
     (scheduleAudioCompletionCheck s now).invoked = s.pendingNextBallAction.toList) := by
  simpa [scheduleAudioCompletionCheck]
    using performCheckAndAct_slot { s with audioCompletionCheckTimeout := none } now

/-- Chunk admission touches neither the slot nor the safety net. -/
lemma enqueueChunk_slot (s : SchedState) (now dur : ℚ) (ok : Bool) :
    (enqueueChunk s now dur ok).state.pendingNextBallAction = s.pendingNextBallAction ∧
    (enqueueChunk s now dur ok).state.safetyNetNextBallTimeout = s.safetyNetNextBallTimeout ∧
    (enqueueChunk s now dur ok).invoked = [] := by
  simp only [enqueueChunk]
  split_ifs <;> simp [pureOut]

/-- The message handler obeys the slot characterization. -/
lemma onmessage_slot (s : SchedState) (m : LiveMessage) (now : ℚ) :
    ((onmessage s m now).state.pendingNextBallAction = s.pendingNextBallAction ∧
     (onmessage s m now).state.safetyNetNextBallTimeout = s.safetyNetNextBallTimeout ∧
     (onmessage s m now).invoked = []) ∨
    ((onmessage s m now).state.pendingNextBallAction = none ∧
     (onmessage s m now).state.safetyNetNextBallTimeout = none ∧
     (onmessage s m now).invoked = s.pendingNextBallAction.toList) := by
  by_cases hmt : m.hasModelTurn = true
  · rcases hau : m.audioChunk with _ | ⟨d, ok⟩
    · by_cases htc : m.turnComplete = true
      · simpa [onmessage, hmt, hau, htc] using scheduleCheck_slot s now
      · rw [Bool.not_eq_true] at htc
        simp [onmessage, hmt, hau, htc, pureOut]
    · obtain ⟨he1, he2, he3⟩ := enqueueChunk_slot s now d ok
      simp only [onmessage, hmt, hau]
      by_cases hthrew : (enqueueChunk s now d ok).threw = true
      · simp [hthrew, he1, he2, he3]
      · rw [Bool.not_eq_true] at hthrew
        by_cases htc : m.turnComplete = true
        · rcases scheduleCheck_slot (enqueueChunk s now d ok).state now with
            ⟨h1, h2, h3⟩ | ⟨h1, h2, h3⟩
          · simp [hthrew, htc, seqOut, h1, h2, h3, he1, he2, he3]
          · right
            simp [hthrew, htc, seqOut, h1, h2, h3, he1, he2, he3]
        · rw [Bool.not_eq_true] at htc
          simp [hthrew, htc, he1, he2, he3]
  · rw [Bool.not_eq_true] at hmt
    by_cases htc : m.turnComplete = true
    · simpa [onmessage, hmt, htc] using scheduleCheck_slot s now
    · rw [Bool.not_eq_true] at htc
      simp [onmessage, hmt, htc, pureOut]

/-- The error handler obeys the slot characterization. -/
lemma onerror_slot (s : SchedState) (now : ℚ) :
    ((onerror s now).state.pendingNextBallAction = s.pendingNextBallAction ∧
     (onerror s now).state.safetyNetNextBallTimeout = s.safetyNetNextBallTimeout ∧
     (onerror s now).invoked = []) ∨
    ((onerror s now).state.pendingNextBallAction = none ∧
     (onerror s now).state.safetyNetNextBallTimeout = none ∧
     (onerror s now).invoked = s.pendingNextBallAction.toList) := by
  simpa [onerror] using scheduleCheck_slot
    { s with isLiveSessionReady := false, commentaryStatus := liveErrStatus,
             isAudioPlaying := false } now

/-- The close handler obeys the slot characterization. -/
lemma onclose_slot (s : SchedState) (now : ℚ) :
    ((onclose s now).state.pendingNextBallAction = s.pendingNextBallAction ∧
     (onclose s now).state.safetyNetNextBallTimeout = s.safetyNetNextBallTimeout ∧
     (onclose s now).invoked = []) ∨
    ((onclose s now).state.pendingNextBallAction = none ∧
     (onclose s now).state.safetyNetNextBallTimeout = none ∧
     (onclose s now).invoked = s.pendingNextBallAction.toList) := by
  simpa [onclose] using scheduleCheck_slot
    { s with isLiveSessionReady := false, commentaryStatus := liveClosedStatus,
             isAudioPlaying := false } now

/-- From an armed slot, any single event either leaves the slot armed and
invokes nothing, or consumes the action exactly once, clearing the slot and
cancelling the safety net. -/
lemma step_phaseA (a nid : ℕ) (s : SchedState) (e : Ev) (h : PhaseA a nid s) :
    (PhaseA a nid (step s e).1 ∧ (step s e).2 = []) ∨
    (PhaseB (step s e).1 ∧ (step s e).2 = [a]) := by
  obtain ⟨hp, hn⟩ := h
  have htoList : s.pendingNextBallAction.toList = [a] := by rw [hp]; rfl
  cases e with
  | checkFires id now =>
      simp only [step]
      split_ifs
      · rcases performCheckAndAct_slot s now with ⟨h1, h2, h3⟩ | ⟨h1, h2, h3⟩
        · exact Or.inl ⟨⟨h1.trans hp, h2.trans hn⟩, h3⟩
        · exact Or.inr ⟨⟨h1, h2⟩, h3.trans htoList⟩
      · exact Or.inl ⟨⟨hp, hn⟩, rfl⟩
  | message m now =>
      rcases onmessage_slot s m now with ⟨h1, h2, h3⟩ | ⟨h1, h2, h3⟩
      · exact Or.inl ⟨⟨h1.trans hp, h2.trans hn⟩, h3⟩
      · exact Or.inr ⟨⟨h1, h2⟩, h3.trans htoList⟩
  | errorEv now =>
      rcases onerror_slot s now with ⟨h1, h2, h3⟩ | ⟨h1, h2, h3⟩
      · exact Or.inl ⟨⟨h1.trans hp, h2.trans hn⟩, h3⟩
      · exact Or.inr ⟨⟨h1, h2⟩, h3.trans htoList⟩
  | closeEv now =>
      rcases onclose_slot s now with ⟨h1, h2, h3⟩ | ⟨h1, h2, h3⟩
      · exact Or.inl ⟨⟨h1.trans hp, h2.trans hn⟩, h3⟩
      · exact Or.inr ⟨⟨h1, h2⟩, h3.trans htoList⟩
  | netFires id =>
      by_cases hid : id = nid
      · subst hid
        right
        simp [step, safetyNetFire, hn, hp, PhaseB]
      · left
        have hne : nid ≠ id := fun hc => hid hc.symm
        simp [step, safetyNetFire, hp, hn, PhaseA, hne]

/-- From an empty slot with no safety net, no event ever invokes anything
or re-arms the slot. -/
lemma step_phaseB (s : SchedState) (e : Ev) (h : PhaseB s) :
    PhaseB (step s e).1 ∧ (step s e).2 = [] := by
  obtain ⟨hp, hn⟩ := h
  have htoList : s.pendingNextBallAction.toList = [] := by rw [hp]; rfl
  cases e with
  | checkFires id now =>
      simp only [step]
      split_ifs
      · rcases performCheckAndAct_slot s now with ⟨h1, h2, h3⟩ | ⟨h1, h2, h3⟩
        · exact ⟨⟨h1.trans hp, h2.trans hn⟩, h3⟩
        · exact ⟨⟨h1, h2⟩, h3.trans htoList⟩
      · exact ⟨⟨hp, hn⟩, rfl⟩
  | message m now =>
      rcases onmessage_slot s m now with ⟨h1, h2, h3⟩ | ⟨h1, h2, h3⟩
      · exact ⟨⟨h1.trans hp, h2.trans hn⟩, h3⟩
      · exact ⟨⟨h1, h2⟩, h3.trans htoList⟩
  | errorEv now =>
      rcases onerror_slot s now with ⟨h1, h2, h3⟩ | ⟨h1, h2, h3⟩
      · exact ⟨⟨h1.trans hp, h2.trans hn⟩, h3⟩
      · exact ⟨⟨h1, h2⟩, h3.trans htoList⟩
  | closeEv now =>
      rcases onclose_slot s now with ⟨h1, h2, h3⟩ | ⟨h1, h2, h3⟩
      · exact ⟨⟨h1.trans hp, h2.trans hn⟩, h3⟩
      · exact ⟨⟨h1, h2⟩, h3.trans htoList⟩
  | netFires id =>
      have : s.safetyNetNextBallTimeout ≠ some id := by rw [hn]; simp
      simp [step, safetyNetFire, this, PhaseB, hp, hn]

/-- A trace started from an empty slot invokes nothing. -/
lemma runTrace_phaseB (s : SchedState) (es : List Ev) (h : PhaseB s) :
    PhaseB (runTrace s es).1 ∧ (runTrace s es).2 = [] := by
  induction es generalizing s with
  | nil => exact ⟨h, rfl⟩
  | cons e rest ih =>
      obtain ⟨h1, h2⟩ := step_phaseB s e h
      obtain ⟨h3, h4⟩ := ih (step s e).1 h1
      simp only [runTrace]
      exact ⟨h3, by simp [h2, h4]⟩

/-- A trace started from an armed slot invokes the armed action at most
once: either it is still armed and nothing was invoked, or the slot is
empty, the net cancelled, and the action was invoked exactly once. -/
lemma runTrace_phaseA (a nid : ℕ) (s : SchedState) (es : List Ev)
    (h : PhaseA a nid s) :
    (PhaseA a nid (runTrace s es).1 ∧ (runTrace s es).2 = []) ∨
    (PhaseB (runTrace s es).1 ∧ (runTrace s es).2 = [a]) := by
  induction es generalizing s with
  | nil => exact Or.inl ⟨h, rfl⟩
  | cons e rest ih =>
      simp only [runTrace]
      rcases step_phaseA a nid s e h with ⟨h1, h2⟩ | ⟨h1, h2⟩
      · rcases ih (step s e).1 h1 with ⟨h3, h4⟩ | ⟨h3, h4⟩
        · exact Or.inl ⟨h3, by simp [h2, h4]⟩
        · exact Or.inr ⟨h3, by simp [h2, h4]⟩
      · obtain ⟨h3, h4⟩ := runTrace_phaseB (step s e).1 rest h1
        exact Or.inr ⟨h3, by simp [h2, h4]⟩

/-- If the armed safety-net timer's fire event occurs in the trace, the
action is invoked exactly once by the end of the trace. -/
lemma runTrace_phaseA_net (a nid : ℕ) (s : SchedState) (es : List Ev)
    (h : PhaseA a nid s) (hm : Ev.netFires nid ∈ es) :
    (runTrace s es).2 = [a] := by
  induction es generalizing s with
  | nil => cases hm
  | cons e rest ih =>
      simp only [runTrace]
      rcases List.mem_cons.mp hm with hme | hmr
      · subst hme
        have hstep : (step s (Ev.netFires nid)).2 = [a] ∧
            PhaseB (step s (Ev.netFires nid)).1 := by
          obtain ⟨hp, hn⟩ := h
          constructor
          · simp [step, safetyNetFire, hn, hp]
          · simp [step, safetyNetFire, hn, hp, PhaseB]
        rw [runTrace_phaseB _ rest hstep.2 |>.2, hstep.1]
        rfl
      · rcases step_phaseA a nid s e h with ⟨h1, h2⟩ | ⟨h1, h2⟩
        · rw [h2, ih (step s e).1 h1 hmr]
          rfl
        · rw [h2, runTrace_phaseB (step s e).1 rest h1 |>.2]
          rfl

/-- C1: after a single `setPendingAction`, the action runs exactly once
regardless of whether the detector path or the safety-net path wins the
race: along any subsequent trace of events the action is invoked at most
once; whenever the armed safety-net timer's fire event is in the trace the
action has been invoked exactly once by the end (by the detector, which
cancelled the timer and made its fire a no-op, or by the timer itself); and
whenever it has been invoked, the slot is clear and the safety net
cancelled. -/
theorem pending_action_exactly_once (s0 : SchedState) (a : ℕ) (es : List Ev) :
    ((runTrace (setPendingAction s0 a) es).2 = [] ∨
     (runTrace (setPendingAction s0 a) es).2 = [a]) ∧
    (Ev.netFires s0.nextTimerId ∈ es →
       (runTrace (setPendingAction s0 a) es).2 = [a]) ∧
    ((runTrace (setPendingAction s0 a) es).2 = [a] →
       (runTrace (setPendingAction s0 a) es).1.pendingNextBallAction = none ∧
       (runTrace (setPendingAction s0 a) es).1.safetyNetNextBallTimeout = none) := by
  have hA : PhaseA a s0.nextTimerId (setPendingAction s0 a) := ⟨rfl, rfl⟩
  refine ⟨?_, ?_, ?_⟩
  · rcases runTrace_phaseA a s0.nextTimerId _ es hA with ⟨-, h2⟩ | ⟨-, h2⟩
    · exact Or.inl h2
    · exact Or.inr h2
  · exact runTrace_phaseA_net a s0.nextTimerId _ es hA
  · intro hinv
    rcases runTrace_phaseA a s0.nextTimerId _ es hA with ⟨-, h2⟩ | ⟨hB, -⟩
    · rw [hinv] at h2; cases h2
    · exact hB

/-- Witness for C1: action 9 is set, the safety net (handle 5) fires, and
the trace invokes the action exactly once. -/
theorem pending_action_exactly_once_witness :
    Ev.netFires (⟨0, false, true, true, none, none, none, "", 5⟩ : SchedState).nextTimerId
        ∈ [Ev.netFires 5] ∧
    (runTrace (setPendingAction ⟨0, false, true, true, none, none, none, "", 5⟩ 9)
        [Ev.netFires 5]).2 = [9] := by
  have hm : Ev.netFires
      (⟨0, false, true, true, none, none, none, "", 5⟩ : SchedState).nextTimerId
        ∈ [Ev.netFires 5] := by decide
  exact ⟨hm,
    (pending_action_exactly_once ⟨0, false, true, true, none, none, none, "", 5⟩ 9
      [Ev.netFires 5]).2.1 hm⟩

/-- C10: the copy of the commentary hook embedded in GameCanvas.tsx is
observationally equivalent to the copy in useLiveCommentary.ts: on every
state and every chunk/turn-complete/error/close event and clock reading,
every translated handler of the two copies returns identical outcomes
(identical chunk start times, cursor values, playing-flag transitions and
pending-action invocations). -/
theorem gamecanvas_copy_equivalent (s : SchedState) (m : LiveMessage)
    (now dur : ℚ) (ok : Bool) :
    GC.performCheckAndAct s now = performCheckAndAct s now ∧
    GC.scheduleAudioCompletionCheck s now = scheduleAudioCompletionCheck s now ∧
    GC.enqueueChunk s now dur ok = enqueueChunk s now dur ok ∧
    GC.onmessage s m now = onmessage s m now ∧
    GC.onerror s now = onerror s now ∧
    GC.onclose s now = onclose s now ∧
    GC.initSessionReset s now = initSessionReset s now :=
  ⟨rfl, rfl, rfl, rfl, rfl, rfl, rfl⟩

end Commentary
